import Mathlib

/-!
# Verification development for the `knowledge-ingress` repository

This file gives a shallow embedding of the two verified components of the
repository and proves (or refutes) the frozen claims about them:

* the TypeScript artifact-repository registry (`artifact-repos.ts`: path
  resolution, registration, status checks, scoped artifact read/write);
* the PowerShell ingestion pipelines (`Invoke-KnowledgeIngress.ps1` in its
  Flow and LLM variants, `Invoke-Ingress.ps1` with NORM/TAC/SIG validation,
  and the shared helpers `Get-Sha256Hash` / `Get-Sha12`).

Filesystem and network effects are made explicit: the registry file is a
value threaded through the operations, the filesystem is a finite map,
remote calls are parameters of type `Except`, and the per-file pipelines
return the ordered trace of their disk/network effects.
-/

/-! ## Generic string helpers -/

/-- Boolean list-prefix test (the semantics of JavaScript
`String.prototype.startsWith` over the character lists of the two strings). -/
def charsPre : List Char → List Char → Bool
  | [], _ => true
  | _ :: _, [] => false
  | a :: as, b :: bs => a == b && charsPre as bs

/-- JavaScript `full.startsWith(pre)`. -/
def strStartsWith (full pre : String) : Bool :=
  charsPre pre.data full.data

/-- .NET `[string]::IsNullOrWhiteSpace` / PowerShell falsiness of an
all-whitespace string: true iff every character is whitespace (the empty
string and the null string both qualify; null is modelled as `""`). -/
def isNullOrWhiteSpace (s : String) : Bool :=
  s.data.all (·.isWhitespace)

/-- .NET `String.Trim` / JavaScript `trim`: strip leading and trailing
whitespace (modelled over the character list). -/
def strTrim (s : String) : String :=
  ⟨((s.data.dropWhile Char.isWhitespace).reverse.dropWhile Char.isWhitespace).reverse⟩

/-- Path join with an (abstract, rendered `/`) separator; stands for both
Node's template joins and PowerShell `Join-Path`. -/
def joinPath (a b : String) : String := a ++ "/" ++ b

/-! ## Node path model (`node:path` `resolve`), used by `artifact-repos.ts`

An absolute path is a list of segments (the empty list is the root `/`).
A path argument given to `resolve` is a flag (absolute?) plus raw segments;
normalisation drops empty and `.` segments and makes `..` pop the previous
segment (at the root, excess `..` is discarded), exactly as `path.resolve`
does for POSIX paths. -/

/-- A (possibly relative) path argument, as Node's parser splits it. -/
structure RelPath where
  absolute : Bool
  segs : List String
deriving DecidableEq, Repr

/-- One step of absolute-path normalisation. -/
def normStep (acc : List String) (seg : String) : List String :=
  if seg = "" ∨ seg = "." then acc
  else if seg = ".." then acc.dropLast
  else acc ++ [seg]

/-- Normalise the segment list of an absolute path. -/
def normSegsAbs (segs : List String) : List String :=
  segs.foldl normStep []

/-- `path.resolve(base, p)` for an absolute (already resolved) `base`. -/
def nodeResolve (base : List String) (p : RelPath) : List String :=
  if p.absolute then normSegsAbs p.segs else normSegsAbs (base ++ p.segs)

/-- The characters of the string form of an absolute path: every segment is
preceded by `/`. -/
def pathChars : List String → List Char
  | [] => []
  | s :: rest => '/' :: s.data ++ pathChars rest

/-- String form of an absolute path (the root is `/`), as Node renders it. -/
def pathToString (segs : List String) : String :=
  if segs = [] then "/" else ⟨pathChars segs⟩

/-- `resolveRepoPath` (artifact-repos.ts:56-59): joins a possibly-relative
path against the project root (`resolve(projectRoot, repoPath)`); the
project root is a parameter of the model. -/
def resolveRepoPath (projectRoot : List String) (repoPath : RelPath) : List String :=
  nodeResolve projectRoot repoPath

/-! ### Path lemmas -/

theorem charsPre_append_self (a b : List Char) : charsPre a (a ++ b) = true := by
  induction a with
  | nil => rfl
  | cons x xs ih => simp [charsPre, ih]

theorem charsPre_cancel (c a b : List Char) :
    charsPre (c ++ a) (c ++ b) = charsPre a b := by
  induction c with
  | nil => rfl
  | cons x xs ih => simp [charsPre, ih]

/-- A segment list is *clean* when normalisation leaves it alone segmentwise. -/
def CleanSegs (l : List String) : Prop :=
  ∀ s ∈ l, s ≠ "" ∧ s ≠ "." ∧ s ≠ ".."

theorem foldl_normStep_clean (l : List String) (acc : List String)
    (h : CleanSegs l) : l.foldl normStep acc = acc ++ l := by
  induction l generalizing acc with
  | nil => simp
  | cons x xs ih =>
    have hx := h x (by simp)
    have hxs : CleanSegs xs := fun s hs => h s (by simp [hs])
    simp only [List.foldl_cons]
    rw [ih _ hxs]
    simp [normStep, hx.1, hx.2.1, hx.2.2]

theorem normSegsAbs_of_clean (l : List String) (h : CleanSegs l) :
    normSegsAbs l = l := by
  simpa [normSegsAbs] using foldl_normStep_clean l [] h

theorem cleanSegs_append {a b : List String} (ha : CleanSegs a) (hb : CleanSegs b) :
    CleanSegs (a ++ b) := by
  intro s hs
  rcases List.mem_append.mp hs with h | h
  · exact ha s h
  · exact hb s h

theorem cleanSegs_normStep (acc : List String) (seg : String)
    (h : CleanSegs acc) : CleanSegs (normStep acc seg) := by
  unfold normStep
  split
  · exact h
  · split
    · intro s hs
      exact h s (List.dropLast_subset _ hs)
    · rename_i h1 h2
      intro s hs
      rcases List.mem_append.mp hs with h' | h'
      · exact h s h'
      · simp only [List.mem_singleton] at h'
        subst h'
        push_neg at h1
        exact ⟨h1.1, h1.2, h2⟩

theorem cleanSegs_foldl (l acc : List String) (h : CleanSegs acc) :
    CleanSegs (l.foldl normStep acc) := by
  induction l generalizing acc with
  | nil => exact h
  | cons x xs ih => exact ih _ (cleanSegs_normStep acc x h)

theorem cleanSegs_normSegsAbs (l : List String) : CleanSegs (normSegsAbs l) :=
  cleanSegs_foldl l [] (by intro s hs; simp at hs)

theorem normSegsAbs_idem (l : List String) :
    normSegsAbs (normSegsAbs l) = normSegsAbs l :=
  normSegsAbs_of_clean _ (cleanSegs_normSegsAbs l)

theorem pathChars_append (a b : List String) :
    pathChars (a ++ b) = pathChars a ++ pathChars b := by
  induction a with
  | nil => rfl
  | cons x xs ih => simp [pathChars, ih]

/-! ## Artifact repository registry (`artifact-repos.ts`)

The registry JSON file is modelled as `Option ReposConfig` (`none` = the file
is missing or unparsable, so `readFile`/`JSON.parse` throws). The insertion
`config.artifacts[name] = repoConfig` appends the key in iteration order, as
JavaScript objects do. -/

/-- `ArtifactRepoConfig` (types.ts): one registered artifact store. -/
structure ArtifactRepoConfig where
  path : RelPath
  remote : Option String
  description : String
  filePatterns : Option (List String)
deriving DecidableEq, Repr

/-- `ReposConfig`: the name → config mapping, in insertion order. -/
structure ReposConfig where
  artifacts : List (String × ArtifactRepoConfig)
deriving DecidableEq, Repr

/-- The distinguishable error outcomes of the registry operations. -/
inductive RegErr where
  /-- `readFile`/`JSON.parse` failed on the registry file. -/
  | parseError
  /-- "Artifact repo ... is already registered". -/
  | alreadyExists
  /-- "Artifact repo ... not found in configuration". -/
  | notFound
  /-- "File path escapes the artifact repo directory". -/
  | pathEscape
  /-- `readFile` failed on the requested artifact file. -/
  | fileMissing
deriving DecidableEq, Repr

/-- Own-key lookup in the `artifacts` object. -/
def lookupRepo : List (String × ArtifactRepoConfig) → String → Option ArtifactRepoConfig
  | [], _ => none
  | (k, v) :: rest, name => if k = name then some v else lookupRepo rest name

/-- `loadConfig` (artifact-repos.ts:43-46): parse the registry file. -/
def loadConfig (file : Option ReposConfig) : Except RegErr ReposConfig :=
  match file with
  | some c => .ok c
  | none => .error .parseError

/-- Filesystem state: file contents keyed by absolute path (segments), plus
the set of directories that exist. -/
structure FS where
  files : List (List String × String)
  dirs : List (List String)
deriving DecidableEq, Repr

/-- `mkdir(dir, {recursive: true})`: create `dir` and every ancestor. -/
def mkdirRec (fs : FS) (dir : List String) : FS :=
  { fs with dirs := ((List.range (dir.length + 1)).map fun i => dir.take i) ++ fs.dirs }

/-- `writeFile(path, content)`. -/
def writeFileFS (fs : FS) (p : List String) (content : String) : FS :=
  { fs with files := (p, content) :: fs.files }

/-- `readFile(path)` — the most recent write wins. -/
def readFileFS (fs : FS) (p : List String) : Option String :=
  go fs.files
where
  go : List (List String × String) → Option String
    | [] => none
    | (q, c) :: rest => if q = p then some c else go rest

/-- `writeArtifact` (artifact-repos.ts:176-201): load the registry, resolve
`filePath` against the repository's resolved root, refuse when the resolved
string does not start with the root string, then create directories and
write. Returns the new filesystem and the full path written. -/
def writeArtifact (projectRoot : List String) (file : Option ReposConfig)
    (fs : FS) (repoName : String) (filePath : RelPath) (content : String) :
    Except RegErr (FS × List String) :=
  match loadConfig file with
  | .error e => .error e
  | .ok config =>
    match lookupRepo config.artifacts repoName with
    | none => .error .notFound
    | some repoConfig =>
      let resolvedBase := resolveRepoPath projectRoot repoConfig.path
      let fullPath := nodeResolve resolvedBase filePath
      if strStartsWith (pathToString fullPath) (pathToString resolvedBase) then
        .ok (writeFileFS (mkdirRec fs fullPath.dropLast) fullPath content, fullPath)
      else
        .error .pathEscape

/-- `readArtifact` (artifact-repos.ts:204-224): same resolution and
containment check, then read. -/
def readArtifact (projectRoot : List String) (file : Option ReposConfig)
    (fs : FS) (repoName : String) (filePath : RelPath) :
    Except RegErr String :=
  match loadConfig file with
  | .error e => .error e
  | .ok config =>
    match lookupRepo config.artifacts repoName with
    | none => .error .notFound
    | some repoConfig =>
      let resolvedBase := resolveRepoPath projectRoot repoConfig.path
      let fullPath := nodeResolve resolvedBase filePath
      if strStartsWith (pathToString fullPath) (pathToString resolvedBase) then
        match readFileFS fs fullPath with
        | some c => .ok c
        | none => .error .fileMissing
      else
        .error .pathEscape

/-! ### Repository status (`getRepoStatus`, artifact-repos.ts:70-119) -/

/-- `RepoStatus` (types.ts): the derived snapshot. -/
structure RepoStatus where
  name : String
  config : ArtifactRepoConfig
  exists_ : Bool
  isGitRepo : Bool
  resolvedPath : List String
  currentBranch : Option String
  hasUncommittedChanges : Option Bool
deriving DecidableEq, Repr

/-- The observable behaviour of the probed environment for one repository:
whether `access` succeeds, and the outcome of each git shell-out (`none` =
the command throws, `some out` = it succeeds with stdout `out`). -/
structure RepoProbe where
  pathExists : Bool
  revParseGitDir : Option String
  revParseBranch : Option String
  statusPorcelain : Option String
deriving DecidableEq, Repr

/-- `getRepoStatus`: filesystem probe, then a single try/catch block running
`git rev-parse --git-dir`, `git rev-parse --abbrev-ref HEAD` and
`git status --porcelain` in order; the first failure aborts the block,
keeping whatever was assigned before it. -/
def getRepoStatus (projectRoot : List String) (name : String)
    (config : ArtifactRepoConfig) (probe : RepoProbe) : RepoStatus :=
  let resolvedPath := resolveRepoPath projectRoot config.path
  if !probe.pathExists then
    { name, config, exists_ := false, isGitRepo := false, resolvedPath
      currentBranch := none, hasUncommittedChanges := none }
  else
    match probe.revParseGitDir with
    | none =>
      { name, config, exists_ := true, isGitRepo := false, resolvedPath
        currentBranch := none, hasUncommittedChanges := none }
    | some _ =>
      match probe.revParseBranch with
      | none =>
        { name, config, exists_ := true, isGitRepo := true, resolvedPath
          currentBranch := none, hasUncommittedChanges := none }
      | some branchOut =>
        match probe.statusPorcelain with
        | none =>
          { name, config, exists_ := true, isGitRepo := true, resolvedPath
            currentBranch := some (strTrim branchOut), hasUncommittedChanges := none }
        | some statusOut =>
          { name, config, exists_ := true, isGitRepo := true, resolvedPath
            currentBranch := some (strTrim branchOut)
            hasUncommittedChanges := some (decide (0 < (strTrim statusOut).length)) }

/-! ## OAuth token cache (`Get-OAuthToken`, Invoke-KnowledgeIngress.ps1 Flow
variant, lines 85-117)

Times are in seconds (Int); the script state `{CachedToken, TokenExpiresAt}`
is threaded explicitly. Each call reports how many token-acquisition HTTP
requests it performed (0 or 1). -/

/-- The script-scope cache `$script:CachedToken` / `$script:TokenExpiresAt`. -/
structure TokenState where
  cachedToken : Option String
  tokenExpiresAt : Int
deriving DecidableEq, Repr

/-- Empty cache at process start (`$null` / `[datetime]::MinValue`). -/
def initialTokenState : TokenState := ⟨none, 0⟩

/-- What the token endpoint returns when it is called. -/
structure TokenResponse where
  access_token : String
  expires_in : Int
deriving DecidableEq, Repr

/-- The client-credentials exchange inside `Get-OAuthToken`: throws when no
token comes back, otherwise caches `{token, now + expires_in}`.  The `Nat`
counts token-endpoint requests made by this call. -/
def acquireToken (now : Int) (resp : TokenResponse) :
    Except String (String × TokenState × Nat) :=
  if isNullOrWhiteSpace resp.access_token then
    .error "No access token returned. Check TenantId, ClientId, ClientSecret, and scope."
  else
    .ok (resp.access_token, ⟨some resp.access_token, now + resp.expires_in⟩, 1)

/-- `Get-OAuthToken`: return the cached token while it is more than the
two-minute (120 s) safety margin from expiry, otherwise acquire a new one. -/
def getOAuthToken (st : TokenState) (now : Int) (resp : TokenResponse) :
    Except String (String × TokenState × Nat) :=
  match st.cachedToken with
  | some tok =>
    if now < st.tokenExpiresAt - 120 then .ok (tok, st, 0)
    else acquireToken now resp
  | none => acquireToken now resp

/-! ## Simple pipeline variants (`Process-InboxFile`)

Each run of `Process-InboxFile` is a function from the file and the remote
endpoint's behaviour to the ordered trace of its disk/network effects plus
its control outcome (`.error` = an exception escapes to the driver's
try/catch). Console output is not an effect of interest. -/

/-- The disk/network effects the simple pipelines can perform, in order. -/
inductive Effect where
  /-- The POST to the Flow / LLM endpoint. -/
  | remoteCall
  /-- `Set-Content` of the result into the knowledge repository. -/
  | writeOutput (path : String) (content : String)
  /-- `Move-Item` of the source file into the archive directory. -/
  | archiveMove (src : String) (dest : String)
deriving DecidableEq, Repr

/-- `[System.IO.Path]::GetFileNameWithoutExtension`: everything before the
last dot (the whole name when there is no dot). -/
def fileNameWithoutExt (s : String) : String :=
  if s.data.contains '.' then ⟨((s.data.reverse.dropWhile (· ≠ '.')).drop 1).reverse⟩
  else s

/-- `Get-OutputFileName`: `{timestamp}_{baseName}.md`. -/
def getOutputFileName (timestamp sourceName : String) : String :=
  timestamp ++ "_" ++ fileNameWithoutExt sourceName ++ ".md"

/-- Configuration of the Flow variant that the per-file run reads. -/
structure SimpleCfg where
  knowledgeRepo : String
  archivePath : String
  responseField : String
deriving DecidableEq, Repr

/-- Field lookup in the parsed JSON response object (string fields). `none`
means the property is absent from the object; a field that is present with
a JSON `null` or empty value is `some ""`. -/
def jsonLookup : List (String × String) → String → Option String
  | [], _ => none
  | (k, v) :: rest, f => if k = f then some v else jsonLookup rest f

/-- The error PowerShell raises under `Set-StrictMode -Version Latest`
(Invoke-KnowledgeIngress.ps1 line 34) when `$response.$ResponseField` names
a property the response object does not have. -/
def propertyNotFoundMsg (field : String) : String :=
  "The property '" ++ field ++ "' cannot be found on this object."

/-- `Process-InboxFile` (Flow variant, lines 169-205): skip empty/whitespace
files, then `Send-ToFlow`. The script runs under
`Set-StrictMode -Version Latest`, so reading an *absent* response field
throws, and the exception escapes `Send-ToFlow` and `Process-InboxFile`
(neither catches) to the driver's per-file catch; a *present* but empty (or
JSON-null) field is the falsy value the client warns about and returns,
making the caller skip. Otherwise the output file is written and, as the
last step, the source is archived. A remote failure raises, so the trace
stops at the call. -/
def processInboxFileFlow (cfg : SimpleCfg) (timestamp fileName content : String)
    (flowResult : Except String (List (String × String))) :
    List Effect × Except String Unit :=
  if isNullOrWhiteSpace content then ([], .ok ())
  else
    match flowResult with
    | .error e => ([.remoteCall], .error e)
    | .ok response =>
      match jsonLookup response cfg.responseField with
      | none => ([.remoteCall], .error (propertyNotFoundMsg cfg.responseField))
      | some txt =>
        if txt = "" then ([.remoteCall], .ok ())
        else
          let outputPath := joinPath cfg.knowledgeRepo (getOutputFileName timestamp fileName)
          let archiveDest := joinPath cfg.archivePath fileName
          ([.remoteCall, .writeOutput outputPath txt, .archiveMove fileName archiveDest],
           .ok ())

/-- Configuration of the LLM variant that the per-file run reads. -/
structure SimpleLlmCfg where
  knowledgeRepo : String
  archivePath : String
deriving DecidableEq, Repr

/-- `Process-InboxFile` (LLM variant, lines 377-408): skip empty/whitespace
files; `Send-ToLLM`; then write the joined text blocks (no emptiness check)
and archive. `llmResult` is the joined text of the response's text blocks. -/
def processInboxFileLLM (cfg : SimpleLlmCfg) (timestamp fileName content : String)
    (llmResult : Except String String) : List Effect × Except String Unit :=
  if isNullOrWhiteSpace content then ([], .ok ())
  else
    match llmResult with
    | .error e => ([.remoteCall], .error e)
    | .ok txt =>
      let outputPath := joinPath cfg.knowledgeRepo (getOutputFileName timestamp fileName)
      let archiveDest := joinPath cfg.archivePath fileName
      ([.remoteCall, .writeOutput outputPath txt, .archiveMove fileName archiveDest],
       .ok ())

/-! ## Structured pipeline validation (`Invoke-ProcessTranscript`,
Invoke-Ingress.ps1 lines 149-216)

The part of the run after the Flow call has returned: validate the three
response fields and either record `validation_failed` (writing no artifact
files) or write the three artifact files and a success meta record. -/

/-- The `artifact` header each response sub-object must carry. -/
structure ArtifactHeader where
  type : String
  id : String
deriving DecidableEq, Repr

/-- One of the `norm`/`tac`/`sig` sub-objects of the Flow response. -/
structure ArtifactObj where
  artifact : ArtifactHeader
  payload : String
deriving DecidableEq, Repr

/-- The parsed Flow response: the three expected fields, each possibly
absent (`$null`). -/
structure FlowResponse where
  norm : Option ArtifactObj
  tac : Option ArtifactObj
  sig : Option ArtifactObj
deriving DecidableEq, Repr

/-- The presence checks (`-not $response.norm` …), run unconditionally and
in order. -/
def missingErrs (r : FlowResponse) : List String :=
  (if r.norm = none then ["Missing norm"] else []) ++
  (if r.tac = none then ["Missing tac"] else []) ++
  (if r.sig = none then ["Missing sig"] else [])

/-- The type-tag checks, run only when `$valid` survived the presence
checks (so all three fields are known present). -/
def typeErrs (r : FlowResponse) : List String :=
  match r.norm, r.tac, r.sig with
  | some n, some t, some s =>
    (if n.artifact.type ≠ "norm" then ["norm.artifact.type != 'norm'"] else []) ++
    (if t.artifact.type ≠ "tac" then ["tac.artifact.type != 'tac'"] else []) ++
    (if s.artifact.type ≠ "sig" then ["sig.artifact.type != 'sig'"] else [])
  | _, _, _ => []

/-- The accumulated `$validationErrors`: the presence errors, and the
type-tag errors only when every field was present. -/
def validationErrors (r : FlowResponse) : List String :=
  if missingErrs r = [] then typeErrs r else missingErrs r

/-- The observable outcome of the post-call part of one run: the status
written into `meta.json`, the validation errors it carries, and the artifact
files written (path, content object). -/
structure RunResult where
  metaStatus : String
  validationErrs : List String
  artifactWrites : List (String × ArtifactObj)
deriving DecidableEq, Repr

/-- Lines 149-216 after a successful Flow call: all-or-nothing validation,
then either a `validation_failed` meta and no artifact files, or the three
artifact files at `{artifactsDir}/{kind}/{id}.json` and a `success` meta. -/
def processFlowResponse (artifactsDir : String) (r : FlowResponse) : RunResult :=
  let errs := validationErrors r
  if errs ≠ [] then ⟨"validation_failed", errs, []⟩
  else
    match r.norm, r.tac, r.sig with
    | some n, some t, some s =>
      ⟨"success", [],
        [(joinPath artifactsDir ("norm/" ++ n.artifact.id ++ ".json"), n),
         (joinPath artifactsDir ("tac/" ++ t.artifact.id ++ ".json"), t),
         (joinPath artifactsDir ("sig/" ++ s.artifact.id ++ ".json"), s)]⟩
    | _, _, _ => ⟨"validation_failed", errs, []⟩

/-! ## Hashing and run naming (`lib.ps1`: `Get-Sha256Hash`, `Get-Sha12`;
`Invoke-ProcessTranscript` lines 67-114)

`Get-Sha256Hash` UTF-8-encodes the text, hashes it with SHA-256 and formats
each byte `"x2"` (two lowercase hex digits). The platform SHA-256 primitive
is embedded as the FIPS 180-4 algorithm over `Nat` (word arithmetic mod
`2^32`); it reproduces the standard test vectors. -/

/-- `2^32`, the SHA-256 word modulus. -/
def M32 : Nat := 4294967296

/-- 32-bit right rotation. -/
def rotr32 (n x : Nat) : Nat := ((x >>> n) ||| (x <<< (32 - n))) % M32

/-- FIPS 180-4 `Σ₀`. -/
def bigSigma0 (x : Nat) : Nat := rotr32 2 x ^^^ rotr32 13 x ^^^ rotr32 22 x

/-- FIPS 180-4 `Σ₁`. -/
def bigSigma1 (x : Nat) : Nat := rotr32 6 x ^^^ rotr32 11 x ^^^ rotr32 25 x

/-- FIPS 180-4 `σ₀`. -/
def smallSigma0 (x : Nat) : Nat := rotr32 7 x ^^^ rotr32 18 x ^^^ (x >>> 3)

/-- FIPS 180-4 `σ₁`. -/
def smallSigma1 (x : Nat) : Nat := rotr32 17 x ^^^ rotr32 19 x ^^^ (x >>> 10)

/-- FIPS 180-4 `Ch` (`¬x` as xor with the 32-bit mask). -/
def chFn (x y z : Nat) : Nat := (x &&& y) ^^^ ((x ^^^ 0xffffffff) &&& z)

/-- FIPS 180-4 `Maj`. -/
def majFn (x y z : Nat) : Nat := (x &&& y) ^^^ (x &&& z) ^^^ (y &&& z)

/-- The 64 SHA-256 round constants. -/
def sha256K : List Nat :=
  [1116352408, 1899447441, 3049323471, 3921009573, 961987163, 1508970993,
   2453635748, 2870763221, 3624381080, 310598401, 607225278, 1426881987,
   1925078388, 2162078206, 2614888103, 3248222580, 3835390401, 4022224774,
   264347078, 604807628, 770255983, 1249150122, 1555081692, 1996064986,
   2554220882, 2821834349, 2952996808, 3210313671, 3336571891, 3584528711,
   113926993, 338241895, 666307205, 773529912, 1294757372, 1396182291,
   1695183700, 1986661051, 2177026350, 2456956037, 2730485921, 2820302411,
   3259730800, 3345764771, 3516065817, 3600352804, 4094571909, 275423344,
   430227734, 506948616, 659060556, 883997877, 958139571, 1322822218,
   1537002063, 1747873779, 1955562222, 2024104815, 2227730452, 2361852424,
   2428436474, 2756734187, 3204031479, 3329325298]

/-- The eight 32-bit working variables. -/
structure Hash8 where
  a : Nat
  b : Nat
  c : Nat
  d : Nat
  e : Nat
  f : Nat
  g : Nat
  h : Nat
deriving DecidableEq, Repr

/-- The SHA-256 initial hash value. -/
def sha256H0 : Hash8 :=
  ⟨1779033703, 3144134277, 1013904242, 2773480762, 1359893119, 2600822924, 528734635, 1541459225⟩

/-- `v` as `n` big-endian bytes. -/
def bytesBE (n v : Nat) : List Nat :=
  (List.range n).map fun i => (v >>> (8 * (n - 1 - i))) % 256

/-- SHA-256 padding: `0x80`, zeros to 56 mod 64, then the bit length as 8
big-endian bytes. -/
def sha256Pad (msg : List Nat) : List Nat :=
  let len := msg.length
  let padZeros := (119 - (len % 64)) % 64
  msg ++ [0x80] ++ List.replicate padZeros 0 ++ bytesBE 8 (len * 8)

/-- Big-endian 32-bit words from bytes. -/
def toWords32 : List Nat → List Nat
  | b0 :: b1 :: b2 :: b3 :: rest => (b0 <<< 24 ||| b1 <<< 16 ||| b2 <<< 8 ||| b3) :: toWords32 rest
  | _ => []

/-- Split a byte list into 64-byte blocks (fuel-driven structural
recursion; every step consumes at least one byte, so the list's length is
enough fuel). -/
def chunksOf64Go : Nat → List Nat → List (List Nat)
  | 0, _ => []
  | _, [] => []
  | fuel + 1, x :: xs => ((x :: xs).take 64) :: chunksOf64Go fuel ((x :: xs).drop 64)

/-- Split a byte list into 64-byte blocks. -/
def chunksOf64 (l : List Nat) : List (List Nat) := chunksOf64Go l.length l

/-- Extend the 16 block words to the 64-entry message schedule. -/
def extendWords (ws : List Nat) : List Nat :=
  (List.range 48).foldl (fun a j =>
    let i := j + 16
    a ++ [(smallSigma1 (a.getD (i - 2) 0) + a.getD (i - 7) 0 +
           smallSigma0 (a.getD (i - 15) 0) + a.getD (i - 16) 0) % M32]) ws

/-- One SHA-256 round. -/
def sha256Round (st : Hash8) (k : Nat) (w : Nat) : Hash8 :=
  let t1 := (st.h + bigSigma1 st.e + chFn st.e st.f st.g + k + w) % M32
  let t2 := (bigSigma0 st.a + majFn st.a st.b st.c) % M32
  ⟨(t1 + t2) % M32, st.a, st.b, st.c, (st.d + t1) % M32, st.e, st.f, st.g⟩

/-- Compress one 64-byte block into the running hash. -/
def compressBlock (hs : Hash8) (block : List Nat) : Hash8 :=
  let ws := extendWords (toWords32 block)
  let st := (sha256K.zip ws).foldl (fun s kw => sha256Round s kw.1 kw.2) hs
  ⟨(hs.a + st.a) % M32, (hs.b + st.b) % M32, (hs.c + st.c) % M32, (hs.d + st.d) % M32,
   (hs.e + st.e) % M32, (hs.f + st.f) % M32, (hs.g + st.g) % M32, (hs.h + st.h) % M32⟩

/-- SHA-256 of a byte sequence, as 32 digest bytes. -/
def sha256Bytes (msg : List Nat) : List Nat :=
  let final := (chunksOf64 (sha256Pad msg)).foldl compressBlock sha256H0
  bytesBE 4 final.a ++ bytesBE 4 final.b ++ bytesBE 4 final.c ++ bytesBE 4 final.d ++
  bytesBE 4 final.e ++ bytesBE 4 final.f ++ bytesBE 4 final.g ++ bytesBE 4 final.h

/-- UTF-8 bytes of one character (`[System.Text.Encoding]::UTF8`). -/
def utf8CharBytes (c : Char) : List Nat :=
  let n := c.toNat
  if n < 0x80 then [n]
  else if n < 0x800 then [0xC0 ||| (n >>> 6), 0x80 ||| (n &&& 0x3F)]
  else if n < 0x10000 then
    [0xE0 ||| (n >>> 12), 0x80 ||| ((n >>> 6) &&& 0x3F), 0x80 ||| (n &&& 0x3F)]
  else
    [0xF0 ||| (n >>> 18), 0x80 ||| ((n >>> 12) &&& 0x3F), 0x80 ||| ((n >>> 6) &&& 0x3F),
     0x80 ||| (n &&& 0x3F)]

/-- UTF-8 bytes of a string. -/
def utf8Bytes (s : String) : List Nat :=
  (s.data.map utf8CharBytes).flatten

/-- The sixteen lowercase hexadecimal digits, in value order (codes 48-57
then 97-102). -/
def hexAlphabet : List Char :=
  (List.range 10).map (fun i => Char.ofNat (48 + i)) ++
  (List.range 6).map (fun i => Char.ofNat (97 + i))

/-- A byte as two lowercase hex digits (the `"x2"` format). -/
def hexOfByte (b : Nat) : List Char :=
  [hexAlphabet.getD (b / 16 % 16) '0', hexAlphabet.getD (b % 16) '0']

/-- `Get-Sha256Hash` (lib.ps1:578-588): full lowercase SHA-256 hex of the
UTF-8 encoding of the text. -/
def getSha256Hash (s : String) : String :=
  ⟨((sha256Bytes (utf8Bytes s)).map hexOfByte).flatten⟩

/-- `Get-Sha12` (lib.ps1:590-597): the first 12 characters of that hex. -/
def getSha12 (s : String) : String :=
  (getSha256Hash s).take 12

/-- The run folder name built at Invoke-Ingress.ps1:109:
`"${runTimestamp}_${sha12}"`. -/
def runFolderName (runTimestamp sha12v : String) : String :=
  runTimestamp ++ "_" ++ sha12v

/-- The run folder path: `Join-Path $runsDir "${runTimestamp}_${sha12}"`
with `sha12 = Get-Sha12 transcriptText`. -/
def runFolderPath (runsDir runTimestamp transcriptText : String) : String :=
  joinPath runsDir (runFolderName runTimestamp (getSha12 transcriptText))

/-- Standard-vector check of the embedded SHA-256 (FIPS 180-4, one-block
message `"abc"`). -/
theorem getSha256Hash_abc :
    getSha256Hash "abc" = "ba7816bf8f01cfea414140de5dae2223b00361a396177a9cb410ff61f20015ad" := by
  decide

/-- Standard-vector check of the embedded SHA-256 (empty message). -/
theorem getSha256Hash_empty :
    getSha256Hash "" = "e3b0c44298fc1c149afbf4c8996fb92427ae41e4649b934ca495991b7852b855" := by
  decide

/-! ## Supporting lemmas for the claims -/

/-- C6: starting from the empty cache, the first invocation acquires a token
(one token-endpoint request) and caches `{token, t1 + expires_in}`; a second
invocation while the cache is more than the 120-second margin from expiry
returns the cached token with zero acquisition requests; a third invocation
at or after the expiry time acquires again (a second request). -/
theorem claim_c6_token_caching (t1 t2 t3 : Int) (r1 r2 r3 : TokenResponse)
    (h1 : isNullOrWhiteSpace r1.access_token = false)
    (h3 : isNullOrWhiteSpace r3.access_token = false)
    (hvalid : t2 < t1 + r1.expires_in - 120)
    (hexp : t1 + r1.expires_in ≤ t3) :
    getOAuthToken initialTokenState t1 r1 =
      .ok (r1.access_token, ⟨some r1.access_token, t1 + r1.expires_in⟩, 1) ∧
    getOAuthToken ⟨some r1.access_token, t1 + r1.expires_in⟩ t2 r2 =
      .ok (r1.access_token, ⟨some r1.access_token, t1 + r1.expires_in⟩, 0) ∧
    getOAuthToken ⟨some r1.access_token, t1 + r1.expires_in⟩ t3 r3 =
      .ok (r3.access_token, ⟨some r3.access_token, t3 + r3.expires_in⟩, 1) := by
  refine ⟨?_, ?_, ?_⟩
  · simp [getOAuthToken, initialTokenState, acquireToken, h1]
  · simp [getOAuthToken, hvalid]
  · have : ¬ (t3 < t1 + r1.expires_in - 120) := by omega
    simp [getOAuthToken, this, acquireToken, h3]

/-- C6 witness: token valid 3600 s acquired at `t=0`, reused at `t=100`,
re-acquired at `t=3600`. -/
theorem claim_c6_witness :
    getOAuthToken initialTokenState 0 ⟨"tokA", 3600⟩ =
      .ok ("tokA", ⟨some "tokA", 3600⟩, 1) ∧
    getOAuthToken ⟨some "tokA", 3600⟩ 100 ⟨"tokB", 3600⟩ =
      .ok ("tokA", ⟨some "tokA", 3600⟩, 0) ∧
    getOAuthToken ⟨some "tokA", 3600⟩ 3600 ⟨"tokB", 3600⟩ =
      .ok ("tokB", ⟨some "tokB", 7200⟩, 1) := by
  have h := claim_c6_token_caching 0 100 3600 ⟨"tokA", 3600⟩ ⟨"tokB", 3600⟩ ⟨"tokB", 3600⟩
    (by decide) (by decide) (by decide) (by decide)
  simpa using h

/-! ## C10: empty or whitespace-only inbox files are skipped untouched -/

/-- C10: in both simple pipeline variants, an inbox file whose content is
empty or whitespace-only makes `Process-InboxFile` return early: the effect
trace is empty (no remote call, no output write, no move out of the inbox)
and no exception escapes. -/
theorem claim_c10_whitespace_skip (cfgF : SimpleCfg) (cfgL : SimpleLlmCfg)
    (timestamp fileName content : String)
    (flowResult : Except String (List (String × String)))
    (llmResult : Except String String)
    (h : isNullOrWhiteSpace content = true) :
    processInboxFileFlow cfgF timestamp fileName content flowResult = ([], .ok ()) ∧
    processInboxFileLLM cfgL timestamp fileName content llmResult = ([], .ok ()) := by
  constructor
  · simp [processInboxFileFlow, h]
  · simp [processInboxFileLLM, h]

/-- C10 witness: a whitespace-only file (`" \n\t"`) is skipped by both
variants even though the remote endpoint would have answered. -/
theorem claim_c10_witness :
    processInboxFileFlow ⟨"kb", "arch", "reply"⟩ "t" "notes.txt" " \n\t"
      (.ok [("reply", "hi")]) = ([], .ok ()) ∧
    processInboxFileLLM ⟨"kb", "arch"⟩ "t" "notes.txt" " \n\t"
      (.ok "hi") = ([], .ok ()) :=
  claim_c10_whitespace_skip ⟨"kb", "arch", "reply"⟩ ⟨"kb", "arch"⟩ "t" "notes.txt"
    " \n\t" (.ok [("reply", "hi")]) (.ok "hi") (by decide)

/-! ## C1: all-or-nothing NORM/TAC/SIG validation -/

/-- Some field of the response is present but carries a mismatched
`artifact.type` tag. -/
def wrongTypePresent (r : FlowResponse) : Prop :=
  (∃ n, r.norm = some n ∧ n.artifact.type ≠ "norm") ∨
  (∃ t, r.tac = some t ∧ t.artifact.type ≠ "tac") ∨
  (∃ s, r.sig = some s ∧ s.artifact.type ≠ "sig")

/-- C1: if any of `norm`/`tac`/`sig` is missing, or any present field's
`artifact.type` differs from its own name, the run's meta status is
`"validation_failed"` and zero artifact files are written; if all three are
present and correctly tagged, the meta status is `"success"` and exactly
the three artifact files `{artifactsDir}/{kind}/{id}.json` are written,
keyed by each `artifact.id`. -/
theorem claim_c1_validation_all_or_nothing (artifactsDir : String) (r : FlowResponse) :
    ((r.norm = none ∨ r.tac = none ∨ r.sig = none ∨ wrongTypePresent r) →
      (processFlowResponse artifactsDir r).metaStatus = "validation_failed" ∧
      (processFlowResponse artifactsDir r).artifactWrites = []) ∧
    (∀ n t s, r.norm = some n → r.tac = some t → r.sig = some s →
      n.artifact.type = "norm" → t.artifact.type = "tac" → s.artifact.type = "sig" →
      (processFlowResponse artifactsDir r).metaStatus = "success" ∧
      (processFlowResponse artifactsDir r).artifactWrites =
        [(joinPath artifactsDir ("norm/" ++ n.artifact.id ++ ".json"), n),
         (joinPath artifactsDir ("tac/" ++ t.artifact.id ++ ".json"), t),
         (joinPath artifactsDir ("sig/" ++ s.artifact.id ++ ".json"), s)]) := by
  constructor
  · intro hbad
    have herr : validationErrors r ≠ [] := by
      rcases hbad with h | h | h | h
      · simp [validationErrors, missingErrs, h]
      · by_cases hn : r.norm = none <;>
          simp [validationErrors, missingErrs, h, hn]
      · by_cases hn : r.norm = none <;> by_cases ht : r.tac = none <;>
          simp [validationErrors, missingErrs, h, hn, ht]
      · rcases h with ⟨n, hn, hty⟩ | ⟨t, ht, hty⟩ | ⟨s, hs, hty⟩
        · by_cases htc : r.tac = none
          · simp [validationErrors, missingErrs, hn, htc]
          · by_cases hsc : r.sig = none
            · simp [validationErrors, missingErrs, hn, htc, hsc]
            · obtain ⟨t, ht⟩ := Option.ne_none_iff_exists'.mp htc
              obtain ⟨s, hs⟩ := Option.ne_none_iff_exists'.mp hsc
              simp [validationErrors, missingErrs, typeErrs, hn, ht, hs, hty]
        · by_cases hnc : r.norm = none
          · simp [validationErrors, missingErrs, hnc]
          · by_cases hsc : r.sig = none
            · simp [validationErrors, missingErrs, hnc, hsc]
            · obtain ⟨n, hn⟩ := Option.ne_none_iff_exists'.mp hnc
              obtain ⟨s, hs⟩ := Option.ne_none_iff_exists'.mp hsc
              by_cases hnty : n.artifact.type = "norm" <;>
                simp [validationErrors, missingErrs, typeErrs, hn, ht, hs, hty, hnty]
        · by_cases hnc : r.norm = none
          · simp [validationErrors, missingErrs, hnc]
          · by_cases htc : r.tac = none
            · simp [validationErrors, missingErrs, hnc, htc]
            · obtain ⟨n, hn⟩ := Option.ne_none_iff_exists'.mp hnc
              obtain ⟨t, ht⟩ := Option.ne_none_iff_exists'.mp htc
              by_cases hnty : n.artifact.type = "norm" <;>
                by_cases htty : t.artifact.type = "tac" <;>
                  simp [validationErrors, missingErrs, typeErrs, hn, ht, hs, hty, hnty, htty]
    simp [processFlowResponse, herr]
  · intro n t s hn ht hs hnty htty hsty
    have herr : validationErrors r = [] := by
      simp [validationErrors, missingErrs, typeErrs, hn, ht, hs, hnty, htty, hsty]
    simp [processFlowResponse, herr, hn, ht, hs]

/-- C1 witness: a fully-present, correctly-tagged response yields a success
meta and exactly the three artifact files; the same response with `tac`
removed yields `validation_failed` and no files. -/
theorem claim_c1_witness :
    (processFlowResponse "artifacts"
        ⟨some ⟨⟨"norm", "n1"⟩, "pn"⟩, some ⟨⟨"tac", "t1"⟩, "pt"⟩,
         some ⟨⟨"sig", "s1"⟩, "ps"⟩⟩).metaStatus = "success" ∧
    (processFlowResponse "artifacts"
        ⟨some ⟨⟨"norm", "n1"⟩, "pn"⟩, some ⟨⟨"tac", "t1"⟩, "pt"⟩,
         some ⟨⟨"sig", "s1"⟩, "ps"⟩⟩).artifactWrites =
      [("artifacts/norm/n1.json", ⟨⟨"norm", "n1"⟩, "pn"⟩),
       ("artifacts/tac/t1.json", ⟨⟨"tac", "t1"⟩, "pt"⟩),
       ("artifacts/sig/s1.json", ⟨⟨"sig", "s1"⟩, "ps"⟩)] ∧
    (processFlowResponse "artifacts"
        ⟨some ⟨⟨"norm", "n1"⟩, "pn"⟩, none, some ⟨⟨"sig", "s1"⟩, "ps"⟩⟩).metaStatus =
      "validation_failed" ∧
    (processFlowResponse "artifacts"
        ⟨some ⟨⟨"norm", "n1"⟩, "pn"⟩, none, some ⟨⟨"sig", "s1"⟩, "ps"⟩⟩).artifactWrites =
      [] := by
  have hgood := (claim_c1_validation_all_or_nothing "artifacts"
    ⟨some ⟨⟨"norm", "n1"⟩, "pn"⟩, some ⟨⟨"tac", "t1"⟩, "pt"⟩,
     some ⟨⟨"sig", "s1"⟩, "ps"⟩⟩).2 _ _ _ rfl rfl rfl rfl rfl rfl
  have hbad := (claim_c1_validation_all_or_nothing "artifacts"
    ⟨some ⟨⟨"norm", "n1"⟩, "pn"⟩, none, some ⟨⟨"sig", "s1"⟩, "ps"⟩⟩).1
    (Or.inr (Or.inl rfl))
  exact ⟨hgood.1, hgood.2, hbad.1, hbad.2⟩

/-! ## C4: Flow-variant archiving discipline (corrected)

The claim says an absent configured response field makes the client warn
and return empty rather than raising. The Flow variant runs under
`Set-StrictMode -Version Latest` (line 34), under which
`$response.$ResponseField` throws a property-not-found error when the field
is absent; neither `Send-ToFlow` nor `Process-InboxFile` catches, so the
exception escapes to the driver. The warn-and-return-empty path exists only
for a field that is *present* but empty (or null). Either way nothing is
written and the source file stays in the inbox. -/

/-- C4 counterexample: the configured field `reply` is absent from the
Flow's response, so the strict-mode property access raises and the
exception escapes `Process-InboxFile` — the run does not complete with the
warn-and-return-empty outcome the claim describes. -/
theorem claim_c4_counterexample :
    processInboxFileFlow ⟨"kb", "arch", "reply"⟩ "t" "notes.txt" "hello"
        (.ok [("other", "x")]) =
      ([.remoteCall], .error (propertyNotFoundMsg "reply")) ∧
    (processInboxFileFlow ⟨"kb", "arch", "reply"⟩ "t" "notes.txt" "hello"
        (.ok [("other", "x")])).2 ≠ .ok () := by
  have hok : processInboxFileFlow ⟨"kb", "arch", "reply"⟩ "t" "notes.txt" "hello"
      (.ok [("other", "x")]) =
      ([.remoteCall], .error (propertyNotFoundMsg "reply")) := rfl
  exact ⟨hok, by rw [hok]; exact fun h => Except.noConfusion h⟩

/-- C4 (amended): in the simple Flow pipeline, a source file is moved to
the archive only as the trace's last step and only after a non-empty remote
result was written to the output file; a failed remote call leaves the
trace without any output write or archive move; an *absent* configured
response field makes the strict-mode property access raise, the exception
escaping to the driver — again nothing is written and the source stays in
the inbox; a *present but empty* field is the case where the client warns
and returns empty, and the file is skipped without output or archive. -/
theorem claim_c4_archive_last (cfg : SimpleCfg) (timestamp fileName content : String)
    (flowResult : Except String (List (String × String))) :
    ((∀ src dest,
        Effect.archiveMove src dest ∈
          (processInboxFileFlow cfg timestamp fileName content flowResult).1 →
        ∃ p c, c ≠ "" ∧
          (processInboxFileFlow cfg timestamp fileName content flowResult).1 =
            [.remoteCall, .writeOutput p c, .archiveMove src dest])) ∧
    (∀ e, flowResult = .error e →
      (∀ p c, Effect.writeOutput p c ∉
        (processInboxFileFlow cfg timestamp fileName content flowResult).1) ∧
      (∀ src dest, Effect.archiveMove src dest ∉
        (processInboxFileFlow cfg timestamp fileName content flowResult).1)) ∧
    (∀ response, flowResult = .ok response →
      jsonLookup response cfg.responseField = none →
      (∀ p c, Effect.writeOutput p c ∉
        (processInboxFileFlow cfg timestamp fileName content flowResult).1) ∧
      (∀ src dest, Effect.archiveMove src dest ∉
        (processInboxFileFlow cfg timestamp fileName content flowResult).1) ∧
      (isNullOrWhiteSpace content = false →
        processInboxFileFlow cfg timestamp fileName content flowResult =
          ([.remoteCall], .error (propertyNotFoundMsg cfg.responseField)))) ∧
    (∀ response, flowResult = .ok response →
      jsonLookup response cfg.responseField = some "" →
      (∀ p c, Effect.writeOutput p c ∉
        (processInboxFileFlow cfg timestamp fileName content flowResult).1) ∧
      (∀ src dest, Effect.archiveMove src dest ∉
        (processInboxFileFlow cfg timestamp fileName content flowResult).1) ∧
      (isNullOrWhiteSpace content = false →
        processInboxFileFlow cfg timestamp fileName content flowResult =
          ([.remoteCall], .ok ()))) := by
  by_cases hws : isNullOrWhiteSpace content
  · refine ⟨?_, ?_, ?_, ?_⟩ <;> simp [processInboxFileFlow, hws]
  · cases flowResult with
    | error e =>
      refine ⟨?_, ?_, ?_, ?_⟩ <;> simp [processInboxFileFlow, hws]
    | ok resp0 =>
      refine ⟨?_, ?_, ?_, ?_⟩
      · intro src dest hmem
        cases hjl : jsonLookup resp0 cfg.responseField with
        | none => simp [processInboxFileFlow, hws, hjl] at hmem
        | some v =>
          by_cases hv : v = ""
          · simp [processInboxFileFlow, hws, hjl, hv] at hmem
          · simp only [processInboxFileFlow, hws, Bool.false_eq_true, if_false, hjl, hv,
              List.mem_cons, List.not_mem_nil, or_false] at hmem
            rcases hmem with h | h | h
            · exact absurd h (by simp)
            · exact absurd h (by simp)
            · obtain ⟨h1, h2⟩ := Effect.archiveMove.injEq .. ▸ h
              rw [h1, h2]
              exact ⟨joinPath cfg.knowledgeRepo (getOutputFileName timestamp fileName),
                v, hv, by simp [processInboxFileFlow, hws, hjl, hv]⟩
      · intro e he
        simp at he
      · intro resp1 hok hnone
        have hr : resp0 = resp1 := by
          simpa using hok
        subst hr
        refine ⟨?_, ?_, ?_⟩ <;> simp [processInboxFileFlow, hws, hnone]
      · intro resp1 hok hempty
        have hr : resp0 = resp1 := by
          simpa using hok
        subst hr
        refine ⟨?_, ?_, ?_⟩ <;> simp [processInboxFileFlow, hws, hempty]

/-- C4 witness: with the field present and non-empty the archive move is
last and follows the output write; a failed remote call writes nothing; an
absent field raises the strict-mode error with nothing written; a
present-but-empty field skips gracefully with nothing written. -/
theorem claim_c4_witness :
    ((processInboxFileFlow ⟨"kb", "arch", "reply"⟩ "t" "notes.txt" "hello"
        (.ok [("reply", "summary")])).1 =
      [.remoteCall, .writeOutput ("kb" ++ "/" ++ "t_notes.md") "summary",
       .archiveMove "notes.txt" ("arch" ++ "/" ++ "notes.txt")]) ∧
    (∀ p c, Effect.writeOutput p c ∉
      (processInboxFileFlow ⟨"kb", "arch", "reply"⟩ "t" "notes.txt" "hello"
        (.error "HTTP 502")).1) ∧
    (processInboxFileFlow ⟨"kb", "arch", "reply"⟩ "t" "notes.txt" "hello"
        (.ok [("other", "x")]) =
      ([.remoteCall], .error (propertyNotFoundMsg "reply"))) ∧
    (processInboxFileFlow ⟨"kb", "arch", "reply"⟩ "t" "notes.txt" "hello"
        (.ok [("reply", "")]) = ([.remoteCall], .ok ())) := by
  refine ⟨by decide, ?_, ?_, ?_⟩
  · exact ((claim_c4_archive_last ⟨"kb", "arch", "reply"⟩ "t" "notes.txt" "hello"
      (.error "HTTP 502")).2.1 "HTTP 502" rfl).1
  · exact ((claim_c4_archive_last ⟨"kb", "arch", "reply"⟩ "t" "notes.txt" "hello"
      (.ok [("other", "x")])).2.2.1 [("other", "x")] rfl (by decide)).2.2 (by decide)
  · exact ((claim_c4_archive_last ⟨"kb", "arch", "reply"⟩ "t" "notes.txt" "hello"
      (.ok [("reply", "")])).2.2.2 [("reply", "")] rfl (by decide)).2.2 (by decide)

/-! ## C9: run identifiers and run-folder naming -/

theorem hexAlphabet_getD_mem (i : Nat) : hexAlphabet.getD i '0' ∈ hexAlphabet := by
  rcases Nat.lt_or_ge i hexAlphabet.length with h | h
  · rw [List.getD_eq_getElem _ _ h]
    exact List.getElem_mem h
  · rw [List.getD_eq_default _ _ h]
    decide

theorem hexOfByte_mem (b : Nat) : ∀ ch ∈ hexOfByte b, ch ∈ hexAlphabet := by
  intro ch hch
  simp only [hexOfByte, List.mem_cons, List.not_mem_nil, or_false] at hch
  rcases hch with h | h <;> exact h ▸ hexAlphabet_getD_mem _

theorem getSha256Hash_chars (s : String) :
    ∀ ch ∈ (getSha256Hash s).data, ch ∈ hexAlphabet := by
  intro ch hch
  simp only [getSha256Hash, List.mem_flatten, List.mem_map] at hch
  obtain ⟨l, ⟨b, _, rfl⟩, hl⟩ := hch
  exact hexOfByte_mem b ch hl

theorem string_append_cancel_of_eq {r x y s : String}
    (h : r ++ (x ++ s) = r ++ (y ++ s)) : x = y := by
  have hd : r.data ++ (x.data ++ s.data) = r.data ++ (y.data ++ s.data) := by
    have := congrArg String.data h
    simpa [String.data_append] using this
  have hxy : x.data ++ s.data = y.data ++ s.data := by
    exact List.append_cancel_left hd
  have : x.data = y.data := List.append_cancel_right hxy
  cases x; cases y
  exact congrArg String.mk this

/-- C9: the run's short identifier `Get-Sha12` is exactly the first 12
characters of the lowercase hexadecimal SHA-256 digest of the transcript
text; the run folder is `{runsDir}/{timestamp}_{sha12}`; and identical
transcript content processed at two different timestamps yields two
distinct run-folder names. -/
theorem claim_c9_run_naming (runsDir t1 t2 text : String) :
    getSha12 text = (getSha256Hash text).take 12 ∧
    (∀ ch ∈ (getSha256Hash text).data, ch ∈ hexAlphabet) ∧
    runFolderPath runsDir t1 text =
      runsDir ++ "/" ++ (t1 ++ ("_" ++ getSha12 text)) ∧
    (t1 ≠ t2 → runFolderPath runsDir t1 text ≠ runFolderPath runsDir t2 text) := by
  refine ⟨rfl, getSha256Hash_chars text, ?_, ?_⟩
  · simp [runFolderPath, runFolderName, joinPath, String.append_assoc]
  · intro hne heq
    apply hne
    have h1 : runsDir ++ "/" ++ (t1 ++ ("_" ++ getSha12 text)) =
        runsDir ++ "/" ++ (t2 ++ ("_" ++ getSha12 text)) := by
      have e1 : runFolderPath runsDir t1 text =
          runsDir ++ "/" ++ (t1 ++ ("_" ++ getSha12 text)) := by
        simp [runFolderPath, runFolderName, joinPath, String.append_assoc]
      have e2 : runFolderPath runsDir t2 text =
          runsDir ++ "/" ++ (t2 ++ ("_" ++ getSha12 text)) := by
        simp [runFolderPath, runFolderName, joinPath, String.append_assoc]
      rw [← e1, ← e2, heq]
    exact string_append_cancel_of_eq h1

set_option maxRecDepth 4000 in
/-- C9 witness: the `"hello"` transcript's sha12 is the first 12 hex digest
characters, and the same content at two timestamps names two folders. -/
theorem claim_c9_witness :
    getSha12 "hello" = (getSha256Hash "hello").take 12 ∧
    runFolderPath "runs" "20250101_120000" "hello" ≠
      runFolderPath "20250101_120000" "runs" "hello" ∧
    runFolderPath "runs" "20250101_120000" "hello" ≠
      runFolderPath "runs" "20250102_093000" "hello" :=
  ⟨(claim_c9_run_naming "runs" "20250101_120000" "20250102_093000" "hello").1,
   by decide,
   (claim_c9_run_naming "runs" "20250101_120000" "20250102_093000" "hello").2.2.2
     (by decide)⟩

/-! ## C8: artifact write/read round-trip -/

theorem resolveRepoPath_clean (projectRoot : List String) (rp : RelPath) :
    CleanSegs (resolveRepoPath projectRoot rp) := by
  unfold resolveRepoPath nodeResolve
  split <;> exact cleanSegs_normSegsAbs _

theorem nodeResolve_clean_append (base : List String) (p : RelPath)
    (hbase : CleanSegs base) (hrel : p.absolute = false)
    (hclean : CleanSegs p.segs) :
    nodeResolve base p = base ++ p.segs := by
  simp [nodeResolve, hrel, normSegsAbs_of_clean _ (cleanSegs_append hbase hclean)]

theorem strStartsWith_pathToString_append (base segs : List String) :
    strStartsWith (pathToString (base ++ segs)) (pathToString base) = true := by
  cases base with
  | nil =>
    cases segs with
    | nil => rfl
    | cons s rest => simp [pathToString, strStartsWith, pathChars, charsPre]
  | cons b bs =>
    have h1 : pathToString (b :: bs) = ⟨pathChars (b :: bs)⟩ := by
      simp [pathToString]
    have h2 : pathToString ((b :: bs) ++ segs) = ⟨pathChars ((b :: bs) ++ segs)⟩ := by
      simp [pathToString]
    rw [h1, h2]
    show charsPre (pathChars (b :: bs)) (pathChars ((b :: bs) ++ segs)) = true
    rw [pathChars_append]
    exact charsPre_append_self _ _

theorem readFileFS_write_same (fs : FS) (p : List String) (content : String) :
    readFileFS (writeFileFS fs p content) p = some content := by
  simp [readFileFS, writeFileFS, readFileFS.go]

theorem dropLast_mem_mkdirRec (fs : FS) (d : List String) :
    d ∈ (mkdirRec fs d).dirs := by
  simp only [mkdirRec, List.mem_append, List.mem_map, List.mem_range]
  exact Or.inl ⟨d.length, Nat.lt_succ_self _, by simp⟩

/-- C8: for every registered repository and every content string, writing to
a (clean, `..`-free) nested relative path inside the repository and reading
the same path back returns exactly that content; the write also creates the
file's parent directory chain. -/
theorem claim_c8_write_read_roundtrip (projectRoot : List String) (c : ReposConfig)
    (fs : FS) (repoName : String) (rcfg : ArtifactRepoConfig)
    (filePath : RelPath) (content : String)
    (hreg : lookupRepo c.artifacts repoName = some rcfg)
    (hrel : filePath.absolute = false)
    (hclean : CleanSegs filePath.segs) :
    writeArtifact projectRoot (some c) fs repoName filePath content =
      .ok (writeFileFS
            (mkdirRec fs (resolveRepoPath projectRoot rcfg.path ++ filePath.segs).dropLast)
            (resolveRepoPath projectRoot rcfg.path ++ filePath.segs) content,
           resolveRepoPath projectRoot rcfg.path ++ filePath.segs) ∧
    readArtifact projectRoot (some c)
        (writeFileFS
          (mkdirRec fs (resolveRepoPath projectRoot rcfg.path ++ filePath.segs).dropLast)
          (resolveRepoPath projectRoot rcfg.path ++ filePath.segs) content)
        repoName filePath =
      .ok content ∧
    (resolveRepoPath projectRoot rcfg.path ++ filePath.segs).dropLast ∈
      (mkdirRec fs (resolveRepoPath projectRoot rcfg.path ++ filePath.segs).dropLast).dirs := by
  have hbase : CleanSegs (resolveRepoPath projectRoot rcfg.path) :=
    resolveRepoPath_clean projectRoot rcfg.path
  have hres : nodeResolve (resolveRepoPath projectRoot rcfg.path) filePath =
      resolveRepoPath projectRoot rcfg.path ++ filePath.segs :=
    nodeResolve_clean_append _ _ hbase hrel hclean
  have hsw : strStartsWith
      (pathToString (resolveRepoPath projectRoot rcfg.path ++ filePath.segs))
      (pathToString (resolveRepoPath projectRoot rcfg.path)) = true :=
    strStartsWith_pathToString_append _ _
  refine ⟨?_, ?_, dropLast_mem_mkdirRec _ _⟩
  · simp only [writeArtifact, loadConfig, hreg, hres, hsw, if_true]
  · simp only [readArtifact, loadConfig, hreg, hres, hsw, if_true,
      readFileFS_write_same]

/-- C8 witness: writing `"C"` to `sub/file.txt` inside the registered
repository `kb` (repo path `data/kb` under project root `/srv/app`) and
reading it back returns `"C"`. -/
theorem claim_c8_witness :
    writeArtifact ["srv", "app"]
        (some ⟨[("kb", ⟨⟨false, ["data", "kb"]⟩, none, "kb store", none⟩)]⟩)
        ⟨[], []⟩ "kb" ⟨false, ["sub", "file.txt"]⟩ "C" =
      .ok (writeFileFS
            (mkdirRec ⟨[], []⟩ ["srv", "app", "data", "kb", "sub"])
            ["srv", "app", "data", "kb", "sub", "file.txt"] "C",
           ["srv", "app", "data", "kb", "sub", "file.txt"]) ∧
    readArtifact ["srv", "app"]
        (some ⟨[("kb", ⟨⟨false, ["data", "kb"]⟩, none, "kb store", none⟩)]⟩)
        (writeFileFS
          (mkdirRec ⟨[], []⟩ ["srv", "app", "data", "kb", "sub"])
          ["srv", "app", "data", "kb", "sub", "file.txt"] "C")
        "kb" ⟨false, ["sub", "file.txt"]⟩ =
      .ok "C" :=
  have h := claim_c8_write_read_roundtrip ["srv", "app"]
    ⟨[("kb", ⟨⟨false, ["data", "kb"]⟩, none, "kb store", none⟩)]⟩
    ⟨[], []⟩ "kb" ⟨⟨false, ["data", "kb"]⟩, none, "kb store", none⟩
    ⟨false, ["sub", "file.txt"]⟩ "C" rfl rfl
    (by
      intro s hs
      simp only [List.mem_cons, List.not_mem_nil, or_false] at hs
      rcases hs with rfl | rfl <;> exact ⟨by decide, by decide, by decide⟩)
  ⟨h.1, h.2.1⟩

/-! ## C7: resolveRepoPath idempotence (corrected)

The claim says absolute inputs come back unchanged. Node's `resolve`
normalises its result, so an absolute but non-normal input such as
`/data/..` comes back as `/`, not unchanged. Idempotence itself holds for
every input, and normal-form absolute inputs do pass through unchanged. -/

/-- C7 counterexample: the absolute input `/data/..` is not returned
unchanged — `resolveRepoPath` collapses it to the root. -/
theorem claim_c7_counterexample :
    resolveRepoPath ["home", "user", "knowledge-ingress"] ⟨true, ["data", ".."]⟩ ≠
      ["data", ".."] := by
  decide

/-- C7 (amended): `resolveRepoPath` is idempotent — feeding its own (always
absolute, normalised) result back in returns it unchanged, for relative and
absolute inputs alike — and an absolute input already in normal form (no
empty, `.` or `..` segments) passes through unchanged. -/
theorem claim_c7_resolve_idempotent (projectRoot : List String) (p : RelPath) :
    resolveRepoPath projectRoot ⟨true, resolveRepoPath projectRoot p⟩ =
      resolveRepoPath projectRoot p ∧
    (p.absolute = true → CleanSegs p.segs →
      resolveRepoPath projectRoot p = p.segs) := by
  constructor
  · show normSegsAbs (resolveRepoPath projectRoot p) = resolveRepoPath projectRoot p
    unfold resolveRepoPath nodeResolve
    split <;> exact normSegsAbs_idem _
  · intro habs hclean
    simp [resolveRepoPath, nodeResolve, habs, normSegsAbs_of_clean _ hclean]

/-- C7 witness: the normal-form absolute path `/a/b` passes through
unchanged, and re-resolving the resolution of the relative path `x/../y`
returns it unchanged. -/
theorem claim_c7_witness :
    resolveRepoPath ["proj"] ⟨true, ["a", "b"]⟩ = ["a", "b"] ∧
    resolveRepoPath ["proj"] ⟨true, resolveRepoPath ["proj"] ⟨false, ["x", "..", "y"]⟩⟩ =
      resolveRepoPath ["proj"] ⟨false, ["x", "..", "y"]⟩ :=
  ⟨(claim_c7_resolve_idempotent ["proj"] ⟨true, ["a", "b"]⟩).2 rfl
    (by
      intro s hs
      simp only [List.mem_cons, List.not_mem_nil, or_false] at hs
      rcases hs with rfl | rfl <;> exact ⟨by decide, by decide, by decide⟩),
   (claim_c7_resolve_idempotent ["proj"] ⟨false, ["x", "..", "y"]⟩).1⟩

/-! ## C5: repository status probing (corrected)

The claim says any git-query failure is surfaced as `isGitRepo=false`. The
try/catch in `getRepoStatus` sets `isGitRepo = true` right after the first
probe succeeds, so a later failure (e.g. `rev-parse --abbrev-ref HEAD` in a
freshly initialised repository with no commits) is swallowed with
`isGitRepo` already `true`. Only a failure of the *initial* probe yields
`isGitRepo=false`. -/

/-- C5 counterexample: the path exists and `rev-parse --git-dir` succeeds,
but the branch query throws (as in an empty repository with no commits):
the failure is swallowed, yet `isGitRepo` is `true`, not `false`. -/
theorem claim_c5_counterexample :
    (getRepoStatus ["root"] "kb" ⟨⟨false, ["kb"]⟩, none, "kb store", none⟩
        ⟨true, some ".git", none, none⟩).isGitRepo = true ∧
    (getRepoStatus ["root"] "kb" ⟨⟨false, ["kb"]⟩, none, "kb store", none⟩
        ⟨true, some ".git", none, none⟩).currentBranch = none := by
  constructor <;> rfl

/-- C5 (amended): a non-existent path yields `exists=false, isGitRepo=false`
with branch and dirty-state unset; a failure of the initial git-repository
probe is swallowed and surfaced as `isGitRepo=false` with both unset; a
failure of a later branch/dirty query is likewise swallowed but leaves
`isGitRepo=true` with the not-yet-computed fields unset; and a clean
checked-out repository reports `exists=true, isGitRepo=true,
hasUncommittedChanges=false`. -/
theorem claim_c5_status_best_effort (projectRoot : List String) (name : String)
    (config : ArtifactRepoConfig) (probe : RepoProbe) :
    (probe.pathExists = false →
      getRepoStatus projectRoot name config probe =
        { name, config, exists_ := false, isGitRepo := false,
          resolvedPath := resolveRepoPath projectRoot config.path,
          currentBranch := none, hasUncommittedChanges := none }) ∧
    (probe.pathExists = true → probe.revParseGitDir = none →
      getRepoStatus projectRoot name config probe =
        { name, config, exists_ := true, isGitRepo := false,
          resolvedPath := resolveRepoPath projectRoot config.path,
          currentBranch := none, hasUncommittedChanges := none }) ∧
    (probe.pathExists = true → ∀ g, probe.revParseGitDir = some g →
      probe.revParseBranch = none →
      getRepoStatus projectRoot name config probe =
        { name, config, exists_ := true, isGitRepo := true,
          resolvedPath := resolveRepoPath projectRoot config.path,
          currentBranch := none, hasUncommittedChanges := none }) ∧
    (probe.pathExists = true → ∀ g branchOut statusOut,
      probe.revParseGitDir = some g → probe.revParseBranch = some branchOut →
      probe.statusPorcelain = some statusOut → strTrim statusOut = "" →
      (getRepoStatus projectRoot name config probe).exists_ = true ∧
      (getRepoStatus projectRoot name config probe).isGitRepo = true ∧
      (getRepoStatus projectRoot name config probe).hasUncommittedChanges =
        some false) := by
  refine ⟨?_, ?_, ?_, ?_⟩
  · intro hpe
    simp [getRepoStatus, hpe]
  · intro hpe hrp
    simp [getRepoStatus, hpe, hrp]
  · intro hpe g hrp hbr
    simp [getRepoStatus, hpe, hrp, hbr]
  · intro hpe g branchOut statusOut hrp hbr hst htrim
    simp [getRepoStatus, hpe, hrp, hbr, hst, htrim]

/-- C5 witness: a missing directory, a non-repository directory, and a
clean repository on branch `main`, each probed concretely. -/
theorem claim_c5_witness :
    getRepoStatus ["root"] "kb" ⟨⟨false, ["kb"]⟩, none, "kb store", none⟩
        ⟨false, none, none, none⟩ =
      { name := "kb", config := ⟨⟨false, ["kb"]⟩, none, "kb store", none⟩,
        exists_ := false, isGitRepo := false, resolvedPath := ["root", "kb"],
        currentBranch := none, hasUncommittedChanges := none } ∧
    getRepoStatus ["root"] "kb" ⟨⟨false, ["kb"]⟩, none, "kb store", none⟩
        ⟨true, none, none, none⟩ =
      { name := "kb", config := ⟨⟨false, ["kb"]⟩, none, "kb store", none⟩,
        exists_ := true, isGitRepo := false, resolvedPath := ["root", "kb"],
        currentBranch := none, hasUncommittedChanges := none } ∧
    ((getRepoStatus ["root"] "kb" ⟨⟨false, ["kb"]⟩, none, "kb store", none⟩
        ⟨true, some ".git", some "main\n", some ""⟩).exists_ = true ∧
     (getRepoStatus ["root"] "kb" ⟨⟨false, ["kb"]⟩, none, "kb store", none⟩
        ⟨true, some ".git", some "main\n", some ""⟩).isGitRepo = true ∧
     (getRepoStatus ["root"] "kb" ⟨⟨false, ["kb"]⟩, none, "kb store", none⟩
        ⟨true, some ".git", some "main\n", some ""⟩).hasUncommittedChanges =
       some false) := by
  have h := claim_c5_status_best_effort ["root"] "kb"
    ⟨⟨false, ["kb"]⟩, none, "kb store", none⟩
  refine ⟨h ⟨false, none, none, none⟩ |>.1 rfl, h ⟨true, none, none, none⟩ |>.2.1 rfl rfl, ?_⟩
  exact h ⟨true, some ".git", some "main\n", some ""⟩ |>.2.2.2 rfl ".git" "main\n" ""
    rfl rfl rfl (by decide)

/-! ## C2: path-containment guard (corrected)

The guard is a plain string-prefix test (`fullPath.startsWith(resolvedBase)`
with no separator-boundary check). `../../etc/passwd` resolves to the
repository root's grandparent plus `etc/passwd`; for most roots that string
does not start with the root and PathEscape is thrown, but for roots that
*are* a string prefix of the resolved target — e.g. the root `/etc`, or any
root ending in `.../etc/passwd` — the check passes and the traversal goes
through, refuting the claim's "for every registered repository root". -/

/-- The probe path `"../../etc/passwd"` of the claim. -/
def dotDotEtcPasswd : RelPath := ⟨false, ["..", "..", "etc", "passwd"]⟩

theorem normStep_dotdot (acc : List String) : normStep acc ".." = acc.dropLast := by
  simp [normStep]

theorem nodeResolve_dotDotEtcPasswd (init : List String) (a b : String)
    (hbase : CleanSegs (init ++ [a, b])) :
    nodeResolve (init ++ [a, b]) dotDotEtcPasswd = init ++ ["etc", "passwd"] := by
  show normSegsAbs ((init ++ [a, b]) ++ ["..", "..", "etc", "passwd"]) =
    init ++ ["etc", "passwd"]
  rw [normSegsAbs, List.foldl_append]
  have h0 : List.foldl normStep [] (init ++ [a, b]) = init ++ [a, b] := by
    simpa using foldl_normStep_clean (init ++ [a, b]) [] hbase
  rw [h0]
  have h1 : (init ++ [a, b]).dropLast = init ++ [a] := by
    rw [show init ++ [a, b] = (init ++ [a]) ++ [b] by simp]
    simp
  have h2 : (init ++ [a]).dropLast = init := by simp
  simp only [List.foldl_cons, List.foldl_nil, normStep_dotdot, h1, h2]
  have h3 : normStep init "etc" = init ++ ["etc"] := by simp [normStep]
  have h4 : normStep (init ++ ["etc"]) "passwd" = init ++ ["etc", "passwd"] := by
    simp [normStep]
  rw [h3, h4]

theorem strStartsWith_etcPasswd_false (init : List String) (a b : String)
    (h : charsPre (a.data ++ '/' :: b.data) "etc/passwd".data = false) :
    strStartsWith (pathToString (init ++ ["etc", "passwd"]))
      (pathToString (init ++ [a, b])) = false := by
  have hne1 : ¬(init ++ [a, b] = []) := by simp
  have hne2 : ¬(init ++ ["etc", "passwd"] = []) := by simp
  rw [strStartsWith, pathToString, pathToString, if_neg hne1, if_neg hne2]
  show charsPre (pathChars (init ++ [a, b])) (pathChars (init ++ ["etc", "passwd"])) = false
  rw [pathChars_append, pathChars_append, charsPre_cancel]
  have ha : pathChars [a, b] = '/' :: (a.data ++ '/' :: b.data) := by
    simp [pathChars]
  have hb : pathChars ["etc", "passwd"] = '/' :: "etc/passwd".data := by
    simp [pathChars]
  rw [ha, hb]
  simpa [charsPre] using h

/-- C2 counterexample: a repository registered at the absolute root `/etc`.
Resolving `"../../etc/passwd"` against it yields `/etc/passwd`, which *does*
start with the string `/etc`, so `writeArtifact` does not fail with
PathEscape — it performs the write (to `/etc/passwd` itself). -/
theorem claim_c2_counterexample :
    writeArtifact ["home", "user", "knowledge-ingress"]
        (some ⟨[("sys", ⟨⟨true, ["etc"]⟩, none, "system store", none⟩)]⟩)
        ⟨[], []⟩ "sys" dotDotEtcPasswd "owned" =
      .ok (⟨[(["etc", "passwd"], "owned")], [[], ["etc"]]⟩, ["etc", "passwd"]) ∧
    writeArtifact ["home", "user", "knowledge-ingress"]
        (some ⟨[("sys", ⟨⟨true, ["etc"]⟩, none, "system store", none⟩)]⟩)
        ⟨[], []⟩ "sys" dotDotEtcPasswd "owned" ≠ .error .pathEscape := by
  have hok : writeArtifact ["home", "user", "knowledge-ingress"]
      (some ⟨[("sys", ⟨⟨true, ["etc"]⟩, none, "system store", none⟩)]⟩)
      ⟨[], []⟩ "sys" dotDotEtcPasswd "owned" =
      .ok (⟨[(["etc", "passwd"], "owned")], [[], ["etc"]]⟩, ["etc", "passwd"]) := rfl
  exact ⟨hok, by rw [hok]; exact fun h => Except.noConfusion h⟩

/-- C2 (amended): for every registered repository, `writeArtifact` and
`readArtifact` fail with PathEscape *exactly* when the resolved full path's
string is not prefixed by the resolved root's string; and the probe
`"../../etc/passwd"` fails with PathEscape for every root of at least two
segments whose final two segments, joined with `/`, are not a character
prefix of `etc/passwd` (roots violating that proviso — such as `/etc` or
any `.../etc/passwd` — let the traversal through, as the counterexample
shows). -/
theorem claim_c2_path_escape (projectRoot : List String) (c : ReposConfig)
    (fs : FS) (repoName : String) (rcfg : ArtifactRepoConfig) (content : String)
    (hreg : lookupRepo c.artifacts repoName = some rcfg) :
    (∀ filePath : RelPath,
      (writeArtifact projectRoot (some c) fs repoName filePath content =
          .error .pathEscape ↔
        strStartsWith
          (pathToString (nodeResolve (resolveRepoPath projectRoot rcfg.path) filePath))
          (pathToString (resolveRepoPath projectRoot rcfg.path)) = false) ∧
      (readArtifact projectRoot (some c) fs repoName filePath =
          .error .pathEscape ↔
        strStartsWith
          (pathToString (nodeResolve (resolveRepoPath projectRoot rcfg.path) filePath))
          (pathToString (resolveRepoPath projectRoot rcfg.path)) = false)) ∧
    (∀ init a b, resolveRepoPath projectRoot rcfg.path = init ++ [a, b] →
      charsPre (a.data ++ '/' :: b.data) "etc/passwd".data = false →
      writeArtifact projectRoot (some c) fs repoName dotDotEtcPasswd content =
        .error .pathEscape ∧
      readArtifact projectRoot (some c) fs repoName dotDotEtcPasswd =
        .error .pathEscape) := by
  have hmain : ∀ filePath : RelPath,
      (writeArtifact projectRoot (some c) fs repoName filePath content =
          .error .pathEscape ↔
        strStartsWith
          (pathToString (nodeResolve (resolveRepoPath projectRoot rcfg.path) filePath))
          (pathToString (resolveRepoPath projectRoot rcfg.path)) = false) ∧
      (readArtifact projectRoot (some c) fs repoName filePath =
          .error .pathEscape ↔
        strStartsWith
          (pathToString (nodeResolve (resolveRepoPath projectRoot rcfg.path) filePath))
          (pathToString (resolveRepoPath projectRoot rcfg.path)) = false) := by
    intro filePath
    cases hs : strStartsWith
        (pathToString (nodeResolve (resolveRepoPath projectRoot rcfg.path) filePath))
        (pathToString (resolveRepoPath projectRoot rcfg.path)) with
    | true =>
      constructor
      · simp only [writeArtifact, loadConfig, hreg, hs, if_true]
        simp
      · simp only [readArtifact, loadConfig, hreg, hs, if_true]
        cases readFileFS fs
            (nodeResolve (resolveRepoPath projectRoot rcfg.path) filePath) <;> simp
    | false =>
      constructor
      · simp only [writeArtifact, loadConfig, hreg, hs, Bool.false_eq_true, if_false]
      · simp only [readArtifact, loadConfig, hreg, hs, Bool.false_eq_true, if_false]
  refine ⟨hmain, ?_⟩
  intro init a b hsplit hpre
  have hbase : CleanSegs (resolveRepoPath projectRoot rcfg.path) :=
    resolveRepoPath_clean projectRoot rcfg.path
  rw [hsplit] at hbase
  have hres : nodeResolve (resolveRepoPath projectRoot rcfg.path) dotDotEtcPasswd =
      init ++ ["etc", "passwd"] := by
    rw [hsplit]
    exact nodeResolve_dotDotEtcPasswd init a b hbase
  have hfalse : strStartsWith
      (pathToString (nodeResolve (resolveRepoPath projectRoot rcfg.path) dotDotEtcPasswd))
      (pathToString (resolveRepoPath projectRoot rcfg.path)) = false := by
    rw [hres, hsplit]
    exact strStartsWith_etcPasswd_false init a b hpre
  exact ⟨((hmain dotDotEtcPasswd).1).mpr hfalse, ((hmain dotDotEtcPasswd).2).mpr hfalse⟩

/-- C2 witness: a repository at relative path `data/kb` (root
`/srv/data/kb`): both operations reject `"../../etc/passwd"` with
PathEscape, and the escape-iff characterisation holds for a sample probe. -/
theorem claim_c2_witness :
    writeArtifact ["srv"]
        (some ⟨[("kb", ⟨⟨false, ["data", "kb"]⟩, none, "kb store", none⟩)]⟩)
        ⟨[], []⟩ "kb" dotDotEtcPasswd "x" = .error .pathEscape ∧
    readArtifact ["srv"]
        (some ⟨[("kb", ⟨⟨false, ["data", "kb"]⟩, none, "kb store", none⟩)]⟩)
        ⟨[], []⟩ "kb" dotDotEtcPasswd = .error .pathEscape :=
  (claim_c2_path_escape ["srv"]
      ⟨[("kb", ⟨⟨false, ["data", "kb"]⟩, none, "kb store", none⟩)]⟩
      ⟨[], []⟩ "kb" ⟨⟨false, ["data", "kb"]⟩, none, "kb store", none⟩ "x" rfl).2
    ["srv"] "data" "kb" (by decide) (by decide)
